import Mathlib

/-!
Shallow embedding of the SlackAgent pipeline core
(`src/agents/fetcher.py`, `src/agents/classifier.py`,
`src/agents/notifier.py`, `src/main.py`).

Conventions of the embedding:
* Python `str` is `String` (a list of Unicode scalar values, so `len`
  is `String.length` and slicing is `List.take` on `String.data`).
* Python floats are modelled as exact rationals `ℚ`; the float literals
  `0.4`, `0.2`, `0.1`, `1.2`, `0.6` become the rationals they denote,
  and `round` becomes round-half-to-even on `ℚ`.
* `str.lower()` is modelled character-wise on the alphabets that occur
  in this repository (ASCII and fullwidth Latin letters).
* Python's `sorted`/`list.sort` with `reverse=True` is the unique stable
  sort for the corresponding total preorder, so it is modelled by
  `List.insertionSort` (which is stable) with the reversed relation.
* External collaborators (the `langdetect` call inside
  `_is_japanese_article` and the sentence-embedding model inside
  `_calculate_embedding_scores`) are parameters (`detect`, `embed`)
  of the functions that call them.
-/

/-- Character-wise model of Python `str.lower()` for ASCII and
fullwidth Latin capitals (the alphabets used by this repository). -/
def pyLowerChar (c : Char) : Char :=
  if 'A' ≤ c ∧ c ≤ 'Z' then Char.ofNat (c.toNat + 32)
  else if 'Ａ' ≤ c ∧ c ≤ 'Ｚ' then Char.ofNat (c.toNat + 32)
  else c

/-- Model of Python `str.lower()`. -/
def pyLower (s : String) : String :=
  String.mk (s.data.map pyLowerChar)

/-- Whitespace recognized by Python `str.strip()` (restricted to the
whitespace characters that occur in this repository's data). -/
def pyIsSpace (c : Char) : Bool :=
  [' ', '\t', '\n', '\r'].contains c

/-- Model of Python `str.strip()`. -/
def pyStrip (s : String) : String :=
  String.mk (((s.data.dropWhile pyIsSpace).reverse.dropWhile pyIsSpace).reverse)

/-- `containsSub pat s` models Python `pat in s` (substring test). -/
def containsSub : List Char → List Char → Bool
  | pat, [] => pat.isEmpty
  | pat, c :: rest => pat.isPrefixOf (c :: rest) || containsSub pat rest

/-- Python `pat in s` on `String`s. -/
def pyIn (pat s : String) : Bool :=
  containsSub pat.data s.data

/-- The data model: one article record, with the `.get(key, default)`
defaults of the Python dictionaries baked into total fields
(`trust_score` defaults to 0 before the fetcher sets it,
`classification_confidence` to 0 before the classifier sets it). -/
structure Article where
  title : String
  content : String
  url : String
  trust_score : Int
deriving DecidableEq

/-- The category labels of `ClassifierAgent.categories`, plus `Other`. -/
inductive Category where
  | AI
  | Cloud
  | Other
deriving DecidableEq

/-- An article after `_classify_single_article`: the input record
(`article.copy()`) updated with `category` and
`classification_confidence`. -/
structure ClassifiedArticle where
  article : Article
  category : Category
  classification_confidence : ℚ
deriving DecidableEq

/-! ### fetcher.py: trust scoring -/

/-- `FetcherAgent.trust_scores`, in insertion (= iteration) order. -/
def trustScoresTable : List (String × Int) :=
  [("aws.amazon.com", 10), ("cloud.google.com", 10), ("azure.microsoft.com", 10),
   ("kubernetes.io", 10), ("docker.com", 9), ("openai.com", 10),
   ("ai.googleblog.com", 10), ("blog.research.google", 10),
   ("dev.classmethod.jp", 9), ("tech.mercari.com", 9), ("engineering.linecorp.com", 9),
   ("techblog.yahoo.co.jp", 9), ("developers.cyberagent.co.jp", 9),
   ("tech.recruit-mp.co.jp", 9), ("blog.cloudflare.com", 9),
   ("zenn.dev", 7), ("qiita.com", 6), ("dev.to", 6), ("medium.com", 5),
   ("hackernoon.com", 6), ("towards-ai.net", 6), ("towardsdatascience.com", 7),
   ("github.io", 5), ("herokuapp.com", 4), ("netlify.app", 4), ("vercel.app", 4)]

/-- Helper for `pyNetloc`: the remainder of the character list after the
first occurrence of `://`. -/
def afterSchemeSep : List Char → Option (List Char)
  | ':' :: '/' :: '/' :: rest => some rest
  | _ :: rest => afterSchemeSep rest
  | [] => none

/-- Model of `urllib.parse.urlparse(url).netloc` for the
`scheme://host/path` URLs this repository handles: the text between the
first `://` and the next `/`, `?` or `#`; empty when no scheme is
present (also `urlparse`'s behaviour on such inputs). -/
def pyNetloc (url : String) : String :=
  match afterSchemeSep url.data with
  | some rest => String.mk (rest.takeWhile (fun c => !(c == '/' || c == '?' || c == '#')))
  | none => ""

/-- `FetcherAgent._calculate_domain_trust_score`. -/
def domainTrustScore (url : String) : Int :=
  let domain := pyLower (pyNetloc url)
  match trustScoresTable.find? (fun p => pyIn p.1 domain) with
  | some p => p.2
  | none =>
    if ["github.io", "googleapis.com", "microsoft.com"].any (fun td => pyIn td domain) then 7
    else 5

/-- `FetcherAgent.quality_factors['author_indicators']`. -/
def authorIndicators : List String :=
  ["author", "by", "著者", "執筆者", "written by", "posted by"]

/-- `FetcherAgent.quality_factors['technical_indicators']`. -/
def technicalIndicators : List String :=
  ["github", "api", "sdk", "terraform", "yaml", "json", "code",
   "implementation", "実装", "サンプル", "example", "tutorial"]

/-- `FetcherAgent.quality_factors['reliability_indicators']`. -/
def reliabilityIndicators : List String :=
  ["official", "documentation", "guide", "best practices",
   "公式", "ドキュメント", "ガイド", "ベストプラクティス"]

/-- `FetcherAgent._calculate_quality_score` (its inputs are the already
lowercased title and content; the title is unused, as in the source). -/
def qualityScore (_title content : String) : Int :=
  let s1 : Int := if authorIndicators.any (fun k => pyIn k content) then 1 else 0
  let techCount : Int := (technicalIndicators.countP (fun k => pyIn k content) : Int)
  let relCount : Int := (reliabilityIndicators.countP (fun k => pyIn k content) : Int)
  min 10 (5 + s1 + min 2 (techCount / 2) + min 2 relCount)

/-- `FetcherAgent._calculate_technical_depth_score`. -/
def technicalDepthScore (_title content : String) : Int :=
  let s1 : Int := if ["```", "<code>", "github.com"].any (fun k => pyIn k content) then 2 else 0
  let s2 : Int := if ["api", "sdk", "cli", "terraform"].any (fun k => pyIn k content) then 1 else 0
  let s3 : Int := if ["implementation", "実装", "configure", "設定"].any (fun k => pyIn k content) then 1 else 0
  let s4 : Int := if ["tutorial", "hands-on", "step-by-step", "ハンズオン"].any (fun k => pyIn k content) then 1 else 0
  min 10 (5 + s1 + s2 + s3 + s4)

/-- `FetcherAgent._calculate_official_score`. -/
def officialScore (title _content url : String) : Int :=
  let officialDomains := ["aws.amazon.com", "cloud.google.com", "azure.microsoft.com",
                          "kubernetes.io", "docker.com", "openai.com"]
  let domain := pyLower (pyNetloc url)
  let s1 : Int := if officialDomains.any (fun od => pyIn od domain) then 3 else 0
  let s2 : Int := if ["blog", "docs", "documentation"].any (fun k => pyIn k (pyLower url)) then 1 else 0
  let s3 : Int := if ["announcing", "release", "リリース", "発表"].any (fun k => pyIn k (pyLower title)) then 1 else 0
  min 10 (5 + s1 + s2 + s3)

/-- `FetcherAgent._calculate_length_score`. -/
def lengthScore (content : String) : Int :=
  if content.length < 200 then 3
  else if content.length < 500 then 5
  else if content.length < 1500 then 7
  else if content.length < 3000 then 9
  else 10

/-- Python `round()` on the exact rational value: round half to even. -/
def pyRound (q : ℚ) : Int :=
  let f := ⌊q⌋
  if q - f < 1/2 then f
  else if 1/2 < q - f then f + 1
  else if Even f then f else f + 1

/-- The weighted sum inside
`FetcherAgent._calculate_comprehensive_trust_score` (weights
0.4/0.2/0.2/0.1/0.1 as exact rationals). -/
def weightedTrustTotal (a : Article) : ℚ :=
  let title := pyLower a.title
  let content := pyLower a.content
  (domainTrustScore a.url : ℚ) * (2/5)
    + (qualityScore title content : ℚ) * (1/5)
    + (technicalDepthScore title content : ℚ) * (1/5)
    + (officialScore title content a.url : ℚ) * (1/10)
    + (lengthScore content : ℚ) * (1/10)

/-- `FetcherAgent._calculate_comprehensive_trust_score`:
`max(1, min(10, round(total_score)))`. -/
def comprehensiveTrustScore (a : Article) : Int :=
  max 1 (min 10 (pyRound (weightedTrustTotal a)))

/-- `FetcherAgent._get_trust_level`. -/
def getTrustLevel (trust_score : Int) : String :=
  if trust_score ≥ 9 then "非常に高い"
  else if trust_score ≥ 7 then "高い"
  else if trust_score ≥ 5 then "普通"
  else if trust_score ≥ 3 then "低い"
  else "非常に低い"

/-- The seen-set loop shared by `FetcherAgent._remove_duplicates` and
`ClassifierAgent._remove_duplicates_and_rank`: keep an element when its
url key is not in `seen`, then add the key to `seen`. -/
def dedupByUrl {α : Type} (key : α → String) : List α → List String → List α
  | [], _ => []
  | a :: rest, seen =>
    if key a ∈ seen then dedupByUrl key rest seen
    else a :: dedupByUrl key rest (key a :: seen)

/-- `FetcherAgent._remove_duplicates`. -/
def fetcherRemoveDuplicates (articles : List Article) : List Article :=
  dedupByUrl (fun a => a.url) articles []

/-! ### notifier.py -/

/-- `NotifierAgent._get_trust_emoji`. -/
def getTrustEmoji (trust_score : Int) : String :=
  if trust_score ≥ 9 then "⭐⭐⭐"
  else if trust_score ≥ 7 then "⭐⭐"
  else if trust_score ≥ 5 then "⭐"
  else "❓"

/-! ### classifier.py -/

/-- `ClassifierAgent.categories['AI']['keywords']`. -/
def aiKeywords : List String :=
  ["ChatGPT", "GPT", "Claude", "Gemini", "LLM", "大規模言語モデル",
   "生成AI", "生成ＡＩ", "OpenAI", "Anthropic", "Google AI",
   "Machine Learning", "機械学習", "ML", "MLOps", "AI",
   "Deep Learning", "ディープラーニング", "Neural Network",
   "Transformer", "BERT", "ファインチューニング", "Fine-tuning",
   "RAG", "Vector Database", "Embedding", "埋め込み",
   "NLP", "自然言語処理", "Computer Vision", "画像認識",
   "人工知能", "Artificial Intelligence", "SageMaker", "AI Platform",
   "Vertex AI", "Azure Cognitive Services", "AWS Bedrock"]

/-- `ClassifierAgent.categories['Cloud']['keywords']`. -/
def cloudKeywords : List String :=
  ["AWS", "Amazon Web Services", "EC2", "S3", "RDS", "Lambda",
   "GCP", "Google Cloud Platform", "Compute Engine", "Cloud Storage",
   "Azure", "Microsoft Azure", "Virtual Machines", "App Service",
   "Kubernetes", "k8s", "Docker", "コンテナ", "Container",
   "EKS", "AKS", "GKE", "ECS", "Cloud Run", "Cloud Functions",
   "CloudFormation", "Terraform", "CDK", "ARM Template",
   "DevOps", "CI/CD", "Jenkins", "GitHub Actions",
   "サーバーレス", "Serverless", "FaaS", "PaaS", "IaaS",
   "クラウド", "Cloud", "インフラ", "Infrastructure"]

/-- The plain-substring alternatives of
`ClassifierAgent.exclusion_patterns` (all alternatives except the
`news(?!letter)` lookahead, which `newsMatch` handles); the text the
patterns are searched in is already lowercased and the one uppercase
alternative `PR` is matched with `re.IGNORECASE`, so every alternative
is written in lowercase here. -/
def exclusionSubstrings : List String :=
  ["採用", "求人", "recruitment", "hiring", "career", "job",
   "イベント", "セミナー", "webinar", "conference", "勉強会",
   "pr", "広告", "advertisement", "sponsored",
   "ニュース", "press release",
   "お知らせ", "announcement", "notice"]

/-- The `news(?!letter)` alternative: an occurrence of `news` that is
not an occurrence of `newsletter`. -/
def newsMatch : List Char → Bool
  | [] => false
  | c :: rest =>
    (List.isPrefixOf "news".data (c :: rest)
      && !(List.isPrefixOf "newsletter".data (c :: rest)))
    || newsMatch rest

/-- The per-article test inside `ClassifierAgent._apply_exclusion_filters`:
does `f"{title.lower()} {content.lower()}"` match any exclusion pattern? -/
def matchesExclusion (title content : String) : Bool :=
  let text := (pyLower title ++ " " ++ pyLower content).data
  exclusionSubstrings.any (fun p => containsSub p.data text) || newsMatch text

/-- The character class `[ひらがなカタカナ漢字]` of
`ClassifierAgent._is_japanese_article`: in a regular expression this is
a set of the nine listed characters, not the three scripts. -/
def japaneseClassChars : List Char :=
  ['ひ', 'ら', 'が', 'な', 'カ', 'タ', 'ナ', '漢', '字']

/-- `len(re.findall(r'[ひらがなカタカナ漢字]', text))`. -/
def japaneseCharCount (text : String) : Nat :=
  (text.data.filter (fun c => japaneseClassChars.contains c)).length

/-- The final ratio check of `_is_japanese_article`:
`len(japanese_chars) / len(text.replace(' ', '')) >= 0.1`. -/
def japaneseRatioOk (text : String) : Bool :=
  let denom := (text.data.filter (fun c => !(c == ' '))).length
  if ((japaneseCharCount text : ℚ) / (denom : ℚ)) < 1/10 then false else true

/-- `ClassifierAgent._is_japanese_article`; `detect` is the external
`langdetect.detect` call, `none` modelling the exception branch. -/
def isJapaneseArticle (detect : String → Option String) (a : Article) : Bool :=
  let text := a.title ++ " " ++ a.content
  if (pyStrip text).length < 10 then false
  else if japaneseCharCount text < 3 then false
  else
    match detect text with
    | some lang => if lang = "ja" then japaneseRatioOk text else false
    | none => japaneseRatioOk text

/-- One category's sum in `ClassifierAgent._calculate_keyword_scores`:
each keyword contained in the lowercased text contributes weight 2.0
when it also occurs in the first 100 characters, else 1.0. -/
def keywordScore (kws : List String) (textLower head100 : List Char) : ℚ :=
  (kws.map (fun kw =>
    let k := (pyLower kw).data
    if containsSub k textLower then (if containsSub k head100 then (2 : ℚ) else 1) else 0)).sum

/-- `ClassifierAgent._calculate_keyword_scores`; the pair is
(AI score, Cloud score), the dictionary's insertion order. -/
def calcKeywordScores (text : String) : ℚ × ℚ :=
  let textLower := (pyLower text).data
  let head100 := (pyLower (String.mk (text.data.take 100))).data
  (keywordScore aiKeywords textLower head100, keywordScore cloudKeywords textLower head100)

/-- `ClassifierAgent._combine_scores`: keyword 60%, embedding 40%. -/
def combineScores (kw emb : ℚ × ℚ) : ℚ × ℚ :=
  (kw.1 * (3/5) + emb.1 * (2/5), kw.2 * (3/5) + emb.2 * (2/5))

/-- `ClassifierAgent._determine_final_category` on the two-key score
dictionary (first component AI, second Cloud). `max` over the keys of a
Python dict returns the first key attaining the maximum, so a tie in
`best_category` goes to AI; the float `1.2` is the rational 6/5. -/
def determineFinalCategory (scores : ℚ × ℚ) : Category :=
  if max scores.1 scores.2 < 2 then Category.Other
  else
    let best := if scores.2 > scores.1 then Category.Cloud else Category.AI
    if 3 ≤ scores.1 ∧ 3 ≤ scores.2 then
      if scores.1 > scores.2 * (6/5) then Category.AI
      else if scores.2 > scores.1 * (6/5) then Category.Cloud
      else Category.AI
    else best

/-- Descending order on `ℚ` (for `sorted(values, reverse=True)`). -/
def qdesc (a b : ℚ) : Prop := b ≤ a

instance : DecidableRel qdesc := fun a b => inferInstanceAs (Decidable (b ≤ a))

instance : IsTotal ℚ qdesc := ⟨fun a b => (le_total b a).elim Or.inl Or.inr⟩

instance : IsTrans ℚ qdesc := ⟨fun _ _ _ h1 h2 => le_trans h2 h1⟩

/-- `ClassifierAgent._calculate_confidence` on the list of the score
dictionary's values. -/
def calcConfidence (vals : List ℚ) : ℚ :=
  match vals.insertionSort qdesc with
  | a :: b :: _ => if a = 0 then 0 else min 1 (max 0 ((a - b) / a))
  | _ => 1

/-- `ClassifierAgent._classify_single_article` restricted to the data
the later stages read (`category`, `classification_confidence`);
`embed` is the external `_calculate_embedding_scores` model call. -/
def classifySingleArticle (embed : String → ℚ × ℚ) (a : Article) : Category × ℚ :=
  let text := a.title ++ " " ++ a.content
  let combined := combineScores (calcKeywordScores text) (embed text)
  (determineFinalCategory combined, calcConfidence [combined.1, combined.2])

/-- The Python sort key of `_remove_duplicates_and_rank`:
`(classification_confidence, trust_score)`. -/
def ckey (c : ClassifiedArticle) : ℚ × Int :=
  (c.classification_confidence, c.article.trust_score)

/-- Lexicographic `≤` on the sort key (Python tuple comparison). -/
def keyLE (p q : ℚ × Int) : Prop :=
  p.1 < q.1 ∨ (p.1 = q.1 ∧ p.2 ≤ q.2)

instance : DecidableRel keyLE := fun p q => by unfold keyLE; infer_instance

/-- `a` may precede `b` in `sorted(..., key=ckey, reverse=True)`. -/
def crel (a b : ClassifiedArticle) : Prop := keyLE (ckey b) (ckey a)

instance : DecidableRel crel := fun a b => inferInstanceAs (Decidable (keyLE (ckey b) (ckey a)))

/-- `ClassifierAgent._remove_duplicates_and_rank`: stable sort by
`(classification_confidence, trust_score)` descending, then keep the
first occurrence of each `url`. -/
def removeDuplicatesAndRank (l : List ClassifiedArticle) : List ClassifiedArticle :=
  dedupByUrl (fun c => c.article.url) (l.insertionSort crel) []

/-- `ClassifierAgent.classify_articles`: Japanese filter, exclusion
filter, per-article classification keeping non-Other results, then
duplicate removal. -/
def classifyArticles (detect : String → Option String) (embed : String → ℚ × ℚ)
    (articles : List Article) : List ClassifiedArticle :=
  let japanese := articles.filter (isJapaneseArticle detect)
  let filtered := japanese.filter (fun a => !matchesExclusion a.title a.content)
  let classified := filtered.filterMap (fun a =>
    let r := classifySingleArticle embed a
    if r.1 ≠ Category.Other then some ⟨a, r.1, r.2⟩ else none)
  removeDuplicatesAndRank classified

/-! ### main.py: quality gate -/

/-- `LeaderAgent._filter_by_quality`. -/
def filterByQuality (minTrust : Int) (articles : List Article) : List Article :=
  articles.filter (fun a => decide (a.trust_score ≥ minTrust))

/-- Descending order on `trust_score` (for the per-category
`sort(key=trust_score, reverse=True)`). -/
def trel (a b : ClassifiedArticle) : Prop :=
  b.article.trust_score ≤ a.article.trust_score

instance : DecidableRel trel := fun a b =>
  inferInstanceAs (Decidable (b.article.trust_score ≤ a.article.trust_score))

instance : IsTotal ClassifiedArticle trel :=
  ⟨fun a b => (le_total b.article.trust_score a.article.trust_score).elim Or.inl Or.inr⟩

instance : IsTrans ClassifiedArticle trel := ⟨fun _ _ _ h1 h2 => le_trans h2 h1⟩

/-- `LeaderAgent._select_best_articles`. -/
def selectBestArticles (maxPerCategory : Nat) (articles : List ClassifiedArticle) :
    List ClassifiedArticle :=
  let cloud := articles.filter (fun c => decide (c.category = Category.Cloud))
  let ai := articles.filter (fun c => decide (c.category = Category.AI))
  (cloud.insertionSort trel).take maxPerCategory ++ (ai.insertionSort trel).take maxPerCategory

/-! ### Concrete instantiations of the external collaborators, used in
the concrete scenarios below -/

/-- A `langdetect` oracle that recognizes every text as Japanese. -/
def detect0 : String → Option String := fun _ => some "ja"

/-- An embedding-score oracle returning 0 for both categories: the
classifier's own fallback when the embedding model failed to load. -/
def embed0 : String → ℚ × ℚ := fun _ => (0, 0)

/-! ### Lemmas about the url-based seen-set loop -/

theorem key_not_seen_of_mem_dedupByUrl {α : Type} (key : α → String) (l : List α) :
    ∀ (seen : List String) (a : α), a ∈ dedupByUrl key l seen → key a ∉ seen := by
  induction l with
  | nil => intro seen a h; simp [dedupByUrl] at h
  | cons b rest ih =>
    intro seen a h
    by_cases hb : key b ∈ seen
    · simp only [dedupByUrl, if_pos hb] at h
      exact ih seen a h
    · simp only [dedupByUrl, if_neg hb] at h
      rcases List.mem_cons.mp h with h | h
      · subst h; exact hb
      · intro hs
        exact ih (key b :: seen) a h (List.mem_cons_of_mem _ hs)

theorem mem_of_mem_dedupByUrl {α : Type} (key : α → String) (l : List α) :
    ∀ (seen : List String) (a : α), a ∈ dedupByUrl key l seen → a ∈ l := by
  induction l with
  | nil => intro seen a h; simp [dedupByUrl] at h
  | cons b rest ih =>
    intro seen a h
    by_cases hb : key b ∈ seen
    · simp only [dedupByUrl, if_pos hb] at h
      exact List.mem_cons_of_mem _ (ih seen a h)
    · simp only [dedupByUrl, if_neg hb] at h
      rcases List.mem_cons.mp h with h | h
      · subst h; exact List.mem_cons_self _ _
      · exact List.mem_cons_of_mem _ (ih (key b :: seen) a h)

theorem dedupByUrl_pairwise_ne {α : Type} (key : α → String) (l : List α) :
    ∀ seen, (dedupByUrl key l seen).Pairwise (fun a b => key a ≠ key b) := by
  induction l with
  | nil => intro seen; simp [dedupByUrl]
  | cons b rest ih =>
    intro seen
    by_cases hb : key b ∈ seen
    · simpa only [dedupByUrl, if_pos hb] using ih seen
    · simp only [dedupByUrl, if_neg hb]
      refine List.Pairwise.cons ?_ (ih (key b :: seen))
      intro a ha he
      apply key_not_seen_of_mem_dedupByUrl key rest (key b :: seen) a ha
      rw [← he]
      exact List.mem_cons_self _ _

theorem countP_dedupByUrl_of_mem {α : Type} (key : α → String) (u : String) (l : List α) :
    ∀ seen, u ∈ seen →
      (dedupByUrl key l seen).countP (fun a => decide (key a = u)) = 0 := by
  induction l with
  | nil => intro seen _; simp [dedupByUrl]
  | cons b rest ih =>
    intro seen hu
    by_cases hb : key b ∈ seen
    · simp only [dedupByUrl, if_pos hb]; exact ih seen hu
    · have hne : key b ≠ u := fun he => hb (he ▸ hu)
      simp only [dedupByUrl, if_neg hb, List.countP_cons]
      simp [ih (key b :: seen) (List.mem_cons_of_mem _ hu), hne]

theorem countP_dedupByUrl {α : Type} (key : α → String) (u : String) (l : List α) :
    ∀ seen, u ∉ seen →
      (dedupByUrl key l seen).countP (fun a => decide (key a = u))
        = min 1 (l.countP (fun a => decide (key a = u))) := by
  induction l with
  | nil => intro seen _; simp [dedupByUrl]
  | cons b rest ih =>
    intro seen hu
    by_cases hb : key b ∈ seen
    · have hne : key b ≠ u := fun he => hu (he ▸ hb)
      simp only [dedupByUrl, if_pos hb, List.countP_cons]
      rw [ih seen hu]
      simp [hne]
    · by_cases he : key b = u
      · subst he
        simp only [dedupByUrl, if_neg hb, List.countP_cons]
        rw [countP_dedupByUrl_of_mem key (key b) rest (key b :: seen) (List.mem_cons_self _ _)]
        simp only [decide_eq_true_eq, eq_self_iff_true, if_true, Nat.zero_add]
        exact (Nat.min_eq_left (Nat.le_add_left 1 _)).symm
      · have hu' : u ∉ key b :: seen := fun h =>
          (List.mem_cons.mp h).elim (fun h' => he h'.symm) hu
        simp only [dedupByUrl, if_neg hb, List.countP_cons]
        rw [ih (key b :: seen) hu']
        simp [he]

theorem dedup_first_of_pairwise {α : Type} (key : α → String) (P : α → α → Prop) (l : List α) :
    ∀ seen, l.Pairwise P → ∀ a ∈ dedupByUrl key l seen, ∀ b ∈ l, key b = key a → b = a ∨ P a b := by
  induction l with
  | nil => intro seen _ a ha; simp [dedupByUrl] at ha
  | cons c rest ih =>
    intro seen hp a ha b hb hkey
    rcases List.pairwise_cons.mp hp with ⟨hc, hrest⟩
    by_cases hcs : key c ∈ seen
    · simp only [dedupByUrl, if_pos hcs] at ha
      rcases List.mem_cons.mp hb with rfl | hb
      · exfalso
        apply key_not_seen_of_mem_dedupByUrl key rest seen a ha
        rw [← hkey]
        exact hcs
      · exact ih seen hrest a ha b hb hkey
    · simp only [dedupByUrl, if_neg hcs] at ha
      rcases List.mem_cons.mp ha with rfl | ha
      · rcases List.mem_cons.mp hb with rfl | hb
        · exact Or.inl rfl
        · exact Or.inr (hc b hb)
      · rcases List.mem_cons.mp hb with hbc | hb
        · exfalso
          apply key_not_seen_of_mem_dedupByUrl key rest (key c :: seen) a ha
          rw [← hkey, hbc]
          exact List.mem_cons_self _ _
        · exact ih (key c :: seen) hrest a ha b hb hkey

theorem exists_mem_dedupByUrl {α : Type} (key : α → String) (l : List α) :
    ∀ seen, ∀ b ∈ l, key b ∉ seen → ∃ a ∈ dedupByUrl key l seen, key a = key b := by
  induction l with
  | nil => intro seen b hb; simp at hb
  | cons c rest ih =>
    intro seen b hb hbs
    by_cases hcs : key c ∈ seen
    · simp only [dedupByUrl, if_pos hcs]
      rcases List.mem_cons.mp hb with rfl | hb
      · exact absurd hcs hbs
      · exact ih seen b hb hbs
    · simp only [dedupByUrl, if_neg hcs]
      by_cases hbc : key b = key c
      · exact ⟨c, List.mem_cons_self _ _, hbc.symm⟩
      · rcases List.mem_cons.mp hb with rfl | hb
        · exact absurd rfl hbc
        · obtain ⟨a, ha, hka⟩ :=
            ih (key c :: seen) b hb (fun h => (List.mem_cons.mp h).elim hbc hbs)
          exact ⟨a, List.mem_cons_of_mem _ ha, hka⟩

/-! ### Order facts about the duplicate-resolution sort key -/

theorem keyLE_total (p q : ℚ × Int) : keyLE p q ∨ keyLE q p := by
  rcases lt_trichotomy p.1 q.1 with h | h | h
  · exact Or.inl (Or.inl h)
  · rcases le_total p.2 q.2 with h2 | h2
    · exact Or.inl (Or.inr ⟨h, h2⟩)
    · exact Or.inr (Or.inr ⟨h.symm, h2⟩)
  · exact Or.inr (Or.inl h)

theorem keyLE_trans (p q r : ℚ × Int) : keyLE p q → keyLE q r → keyLE p r := by
  intro h1 h2
  rcases h1 with h1 | ⟨h1a, h1b⟩ <;> rcases h2 with h2 | ⟨h2a, h2b⟩
  · exact Or.inl (lt_trans h1 h2)
  · exact Or.inl (h2a ▸ h1)
  · exact Or.inl (h1a ▸ h2)
  · exact Or.inr ⟨h1a.trans h2a, le_trans h1b h2b⟩

instance : IsTotal ClassifiedArticle crel :=
  ⟨fun a b => (keyLE_total (ckey a) (ckey b)).elim Or.inr Or.inl⟩

instance : IsTrans ClassifiedArticle crel :=
  ⟨fun a b c h1 h2 => keyLE_trans (ckey c) (ckey b) (ckey a) h2 h1⟩

/-! ### C1: duplicate resolution in `_remove_duplicates_and_rank` -/

/-- A classified article with `url` "u", `trust_score` 3 and
`classification_confidence` 1. -/
def dupConfHigh : ClassifiedArticle := ⟨⟨"ta", "ca", "u", 3⟩, Category.AI, 1⟩

/-- A classified article with the same `url` "u", `trust_score` 9 and
`classification_confidence` 0. -/
def dupConfLow : ClassifiedArticle := ⟨⟨"tb", "cb", "u", 9⟩, Category.AI, 0⟩

/-- C1, counterexample: the kept copy is not determined by
`(trust_score desc, category score desc)` — with two same-url articles,
one with `trust_score = 9` and confidence 0, one with `trust_score = 3`
and confidence 1, `_remove_duplicates_and_rank` keeps the
`trust_score = 3` copy, because its sort key is
`(classification_confidence, trust_score)`. -/
theorem c1_counterexample :
    dupConfLow.article.trust_score = 9 ∧ dupConfHigh.article.trust_score = 3
    ∧ dupConfLow.article.url = dupConfHigh.article.url
    ∧ removeDuplicatesAndRank [dupConfLow, dupConfHigh] = [dupConfHigh] := by
  refine ⟨rfl, rfl, rfl, ?_⟩
  decide

/-- C1, amended: the output of `_remove_duplicates_and_rank` contains at
most one entry per distinct url; every output entry comes from the
input; every input url survives; and the kept copy of each url is
maximal among the input entries sharing that url in the lexicographic
order on `(classification_confidence, trust_score)` — not on
`(trust_score, category score)`. -/
theorem c1_theorem (l : List ClassifiedArticle) :
    ((removeDuplicatesAndRank l).map (fun c => c.article.url)).Nodup
    ∧ (∀ c ∈ removeDuplicatesAndRank l, c ∈ l)
    ∧ (∀ b ∈ l, ∃ c ∈ removeDuplicatesAndRank l, c.article.url = b.article.url)
    ∧ (∀ c ∈ removeDuplicatesAndRank l, ∀ b ∈ l,
        b.article.url = c.article.url → keyLE (ckey b) (ckey c)) := by
  have hperm : (l.insertionSort crel).Perm l := List.perm_insertionSort crel l
  have hsorted : List.Sorted crel (l.insertionSort crel) := List.sorted_insertionSort crel l
  refine ⟨?_, ?_, ?_, ?_⟩
  · rw [List.Nodup, List.pairwise_map]
    exact dedupByUrl_pairwise_ne _ _ []
  · intro c hc
    exact hperm.mem_iff.mp (mem_of_mem_dedupByUrl _ _ _ c hc)
  · intro b hb
    obtain ⟨a, ha, hka⟩ := exists_mem_dedupByUrl (fun c => c.article.url)
      (l.insertionSort crel) [] b (hperm.mem_iff.mpr hb) (List.not_mem_nil _)
    exact ⟨a, ha, hka⟩
  · intro c hc b hb hurl
    unfold removeDuplicatesAndRank at hc
    have hmem : b ∈ l.insertionSort crel := hperm.mem_iff.mpr hb
    rcases dedup_first_of_pairwise (fun x : ClassifiedArticle => x.article.url) crel
        (l.insertionSort crel) [] hsorted c hc b hmem hurl with heq | h
    · rw [heq]
      exact Or.inr ⟨rfl, le_refl _⟩
    · exact h

/-- A classified article with `url` "u", `trust_score` 9,
confidence 1. -/
def dupTrust9 : ClassifiedArticle := ⟨⟨"t9", "c9", "u", 9⟩, Category.AI, 1⟩

/-- A classified article with `url` "u", `trust_score` 3, and the same
confidence 1. -/
def dupTrust3 : ClassifiedArticle := ⟨⟨"t3", "c3", "u", 3⟩, Category.AI, 1⟩

/-- C1, witness: in the equal-confidence scenario of the claim
(`trust_score` 9 vs 3, same url), the kept entry dominates the dropped
one in the sort key, by `c1_theorem`. -/
theorem c1_witness : keyLE (ckey dupTrust3) (ckey dupTrust9) :=
  (c1_theorem [dupTrust3, dupTrust9]).2.2.2 dupTrust9 (by decide) dupTrust3 (by decide) rfl

/-! ### C5: empty url and deduplication -/

/-- First article with an empty `url`. -/
def emptyUrl1 : Article := ⟨"t1", "c1", "", 0⟩

/-- Second article with an empty `url`. -/
def emptyUrl2 : Article := ⟨"t2", "c2", "", 0⟩

/-- C5, counterexample: an empty url is not an always-kept key — of two
distinct articles with empty urls, both dedup steps keep only one. -/
theorem c5_counterexample :
    emptyUrl1 ≠ emptyUrl2
    ∧ emptyUrl1.url = "" ∧ emptyUrl2.url = ""
    ∧ (fetcherRemoveDuplicates [emptyUrl1, emptyUrl2]).length = 1
    ∧ (removeDuplicatesAndRank
        [⟨emptyUrl1, Category.AI, 1⟩, ⟨emptyUrl2, Category.AI, 0⟩]).length = 1 := by
  refine ⟨by decide, rfl, rfl, by decide, by decide⟩

/-- C5, amended: the empty url is an ordinary deduplication key: in both
`_remove_duplicates` (fetcher) and `_remove_duplicates_and_rank`
(classifier), exactly one empty-url article survives whenever the input
contains any, and none otherwise. -/
theorem c5_theorem (l : List Article) (cl : List ClassifiedArticle) :
    (fetcherRemoveDuplicates l).countP (fun a => decide (a.url = ""))
      = min 1 (l.countP (fun a => decide (a.url = "")))
    ∧ (removeDuplicatesAndRank cl).countP (fun c => decide (c.article.url = ""))
      = min 1 (cl.countP (fun c => decide (c.article.url = ""))) := by
  constructor
  · exact countP_dedupByUrl (fun a => a.url) "" l [] (List.not_mem_nil _)
  · rw [removeDuplicatesAndRank,
      countP_dedupByUrl (fun c : ClassifiedArticle => c.article.url) "" _ [] (List.not_mem_nil _),
      (List.perm_insertionSort crel cl).countP_eq]

/-! ### C2: the AI/Cloud tie-break in `_determine_final_category` -/

/-- C2, counterexample: with both scores at or above the strong
threshold 3.0 (`AI = 3`, `Cloud = 4`), the final category is Cloud, not
AI: the code lets Cloud win whenever `Cloud > AI * 1.2`. -/
theorem c2_counterexample :
    (3:ℚ) ≤ 3 ∧ (3:ℚ) ≤ 4
    ∧ determineFinalCategory (3, 4) = Category.Cloud
    ∧ determineFinalCategory (3, 4) ≠ Category.AI := by
  refine ⟨by norm_num, by norm_num, ?_, ?_⟩ <;> with_unfolding_all decide

/-- C2, amended: when both scores are at or above the strong threshold
3.0, AI wins by policy unless Cloud exceeds 1.2 times the AI score, in
which case Cloud wins. -/
theorem c2_theorem (ai cloud : ℚ) (h1 : 3 ≤ ai) (h2 : 3 ≤ cloud) :
    determineFinalCategory (ai, cloud)
      = if cloud > ai * (6/5) then Category.Cloud else Category.AI := by
  unfold determineFinalCategory
  have hmax : ¬(max ai cloud < 2) := by
    rw [not_lt]
    calc (2:ℚ) ≤ 3 := by norm_num
    _ ≤ ai := h1
    _ ≤ max ai cloud := le_max_left ai cloud
  rw [if_neg hmax, if_pos ⟨h1, h2⟩]
  by_cases hA : ai > cloud * (6/5)
  · have hC : ¬(cloud > ai * (6/5)) := by
      intro hC
      linarith
    rw [if_pos hA, if_neg hC]
  · rw [if_neg hA]

/-- C2, witness: at the concrete tie `AI = Cloud = 3`, both at the
strong threshold, the amended rule gives AI. -/
theorem c2_witness : determineFinalCategory (3, 3) = Category.AI := by
  have h := c2_theorem 3 3 (by norm_num) (by norm_num)
  rw [h, if_neg (by norm_num)]

/-! ### C3: `_calculate_confidence` -/

/-- Modelled from the spec's words, for comparison with
`calcConfidence`: `confidence = (top_score - second_score) /
max(top_score, 1)`, clamped to `[0,1]`; fewer than two candidate
categories give confidence 1.0. -/
def specConfidence (vals : List ℚ) : ℚ :=
  match vals.insertionSort qdesc with
  | a :: b :: _ => min 1 (max 0 ((a - b) / max a 1))
  | _ => 1

/-- C3, counterexample: on the value list `[1/2, 0]` the code divides by
the top score itself (giving 1), not by `max(top_score, 1)` (which
would give 1/2); the spec formula and the code disagree. -/
theorem c3_counterexample :
    calcConfidence [(1:ℚ)/2, 0] = 1
    ∧ specConfidence [(1:ℚ)/2, 0] = 1/2
    ∧ calcConfidence [(1:ℚ)/2, 0] ≠ specConfidence [(1:ℚ)/2, 0] := by
  refine ⟨?_, ?_, ?_⟩ <;> with_unfolding_all decide

/-- The head of a `qdesc`-sorted list is the list's maximum. -/
theorem maximum_of_sorted_qdesc {a : ℚ} {t : List ℚ} (h : List.Sorted qdesc (a :: t)) :
    (a :: t).maximum = (a : WithBot ℚ) := by
  rw [List.maximum_eq_coe_iff]
  refine ⟨List.mem_cons_self _ _, ?_⟩
  intro b hb
  rcases List.mem_cons.mp hb with rfl | hb
  · exact le_refl _
  · exact (List.pairwise_cons.mp h).1 b hb

/-- `List.maximum` is invariant under permutation. -/
theorem maximum_eq_of_perm {l₁ l₂ : List ℚ} (h : l₁.Perm l₂) : l₁.maximum = l₂.maximum := by
  by_cases h2 : l₂ = []
  · subst h2
    rw [h.eq_nil]
  · obtain ⟨m, hm⟩ := Option.ne_none_iff_exists'.mp
      (fun hn => h2 (List.maximum_eq_none.mp hn))
    have hm' : l₂.maximum = (m : WithBot ℚ) := hm
    obtain ⟨hmem, hle⟩ := List.maximum_eq_coe_iff.mp hm'
    rw [hm']
    rw [List.maximum_eq_coe_iff]
    exact ⟨h.mem_iff.mpr hmem, fun b hb => hle b (h.mem_iff.mp hb)⟩

/-- C3, amended: with fewer than two candidate values the confidence is
1; otherwise, writing `M` for the top value and `S` for the maximum of
the rest, the confidence is 0 when `M = 0` and otherwise
`(M - S) / M`, clamped to `[0,1]` — the divisor is the top score
itself, not `max(top_score, 1)`. -/
theorem c3_theorem (vals : List ℚ) :
    (vals.length < 2 → calcConfidence vals = 1)
    ∧ (∀ M S : ℚ, 2 ≤ vals.length → vals.maximum = (M : WithBot ℚ) →
        (vals.erase M).maximum = (S : WithBot ℚ) →
        calcConfidence vals = if M = 0 then 0 else min 1 (max 0 ((M - S) / M))) := by
  have hperm : (vals.insertionSort qdesc).Perm vals := List.perm_insertionSort qdesc vals
  have hsorted : List.Sorted qdesc (vals.insertionSort qdesc) :=
    List.sorted_insertionSort qdesc vals
  have hlen : (vals.insertionSort qdesc).length = vals.length :=
    List.length_insertionSort qdesc vals
  constructor
  · intro h
    unfold calcConfidence
    rcases hs : vals.insertionSort qdesc with _ | ⟨a, _ | ⟨b, t⟩⟩
    · rfl
    · rfl
    · rw [hs] at hlen
      simp only [List.length_cons] at hlen
      omega
  · intro M S h2 hM hS
    rcases hs : vals.insertionSort qdesc with _ | ⟨a, _ | ⟨b, t⟩⟩
    · rw [hs] at hlen; simp at hlen; omega
    · rw [hs] at hlen; simp at hlen; omega
    · rw [hs] at hperm hsorted
      have hMa : M = a := by
        have h1 : vals.maximum = (a :: b :: t).maximum := maximum_eq_of_perm hperm.symm
        have h3 : (a :: b :: t).maximum = (a : WithBot ℚ) := maximum_of_sorted_qdesc hsorted
        rw [hM, h3] at h1
        exact_mod_cast h1
      rw [hMa] at hS
      have hSb : S = b := by
        have h1 : List.Perm (vals.erase a) ((a :: b :: t).erase a) := hperm.symm.erase a
        rw [List.erase_cons_head] at h1
        have h4 := maximum_eq_of_perm h1
        rw [hS, maximum_of_sorted_qdesc hsorted.of_cons] at h4
        exact_mod_cast h4
      rw [hMa, hSb]
      unfold calcConfidence
      rw [hs]

/-- C3, witness: at the concrete value list `[2, 1]` the amended formula
applies with top score 2 and second score 1. -/
theorem c3_witness :
    calcConfidence [(2:ℚ), 1]
      = if (2:ℚ) = 0 then 0 else min 1 (max 0 (((2:ℚ) - 1) / 2)) :=
  (c3_theorem [2, 1]).2 2 1 (by decide)
    (by with_unfolding_all decide) (by with_unfolding_all decide)

/-! ### C4: the length-score bucket boundaries -/

/-- C4, amended: content whose character length is exactly at a bucket
boundary gets the upper bucket's score (the comparisons are strict):
exactly 200 scores 5, exactly 500 scores 7, exactly 1500 scores 9,
exactly 3000 scores 10. -/
theorem c4_theorem (content : String) :
    (content.length = 200 → lengthScore content = 5)
    ∧ (content.length = 500 → lengthScore content = 7)
    ∧ (content.length = 1500 → lengthScore content = 9)
    ∧ (content.length = 3000 → lengthScore content = 10) := by
  refine ⟨fun h => ?_, fun h => ?_, fun h => ?_, fun h => ?_⟩ <;> simp [lengthScore, h]

/-- C4, counterexample: a 200-character content scores 5, not the 3 the
claim asserts. -/
theorem c4_counterexample :
    (String.mk (List.replicate 200 'a')).length = 200
    ∧ lengthScore (String.mk (List.replicate 200 'a')) = 5
    ∧ lengthScore (String.mk (List.replicate 200 'a')) ≠ 3 := by
  have h200 : (String.mk (List.replicate 200 'a')).length = 200 :=
    List.length_replicate 200 'a'
  refine ⟨h200, ?_, ?_⟩ <;> unfold lengthScore <;> rw [h200] <;> norm_num

/-- C4, witness: `c4_theorem` applied to concrete contents of lengths
exactly 200, 500, 1500 and 3000. -/
theorem c4_witness :
    lengthScore (String.mk (List.replicate 200 'a')) = 5
    ∧ lengthScore (String.mk (List.replicate 500 'a')) = 7
    ∧ lengthScore (String.mk (List.replicate 1500 'a')) = 9
    ∧ lengthScore (String.mk (List.replicate 3000 'a')) = 10 := by
  exact ⟨(c4_theorem _).1 (List.length_replicate 200 'a'),
    (c4_theorem _).2.1 (List.length_replicate 500 'a'),
    (c4_theorem _).2.2.1 (List.length_replicate 1500 'a'),
    (c4_theorem _).2.2.2 (List.length_replicate 3000 'a')⟩

/-! ### C6: trust level and trust emoji -/

/-- The refinement map from trust levels to notification emojis: the
emoji `_get_trust_emoji` computes, as a function of the level
`_get_trust_level` computes. It merges the two lowest levels into the
single emoji "❓". -/
def levelToEmoji (level : String) : String :=
  if level = "非常に高い" then "⭐⭐⭐"
  else if level = "高い" then "⭐⭐"
  else if level = "普通" then "⭐"
  else "❓"

/-- The emoji is a function of the trust level. -/
theorem trustEmoji_factor (s : Int) : getTrustEmoji s = levelToEmoji (getTrustLevel s) := by
  unfold getTrustEmoji getTrustLevel levelToEmoji
  by_cases h9 : s ≥ 9
  · simp only [if_pos h9]
    decide
  · simp only [if_neg h9]
    by_cases h7 : s ≥ 7
    · simp only [if_pos h7]
      decide
    · simp only [if_neg h7]
      by_cases h5 : s ≥ 5
      · simp only [if_pos h5]
        decide
      · simp only [if_neg h5]
        by_cases h3 : s ≥ 3
        · simp only [if_pos h3]
          decide
        · simp only [if_neg h3]
          decide

/-- C6, counterexample: scores 3 and 2 get the same emoji "❓" but
different trust levels ("低い" vs "非常に低い"), so the emoji mapping
does not induce the same partition of scores as the level mapping. -/
theorem c6_counterexample :
    getTrustEmoji 3 = getTrustEmoji 2 ∧ getTrustLevel 3 ≠ getTrustLevel 2 := by
  decide

/-- C6, amended: `_get_trust_level` is the documented step function
(≥9, ≥7, ≥5, ≥3 with the listed labels), and equal trust levels always
get equal emojis (the emoji partition is a coarsening of the level
partition, merging "低い" and "非常に低い" into "❓" — not the same
partition). -/
theorem c6_theorem :
    (∀ s : Int,
      (getTrustLevel s = "非常に高い" ↔ 9 ≤ s)
      ∧ (getTrustLevel s = "高い" ↔ 7 ≤ s ∧ s < 9)
      ∧ (getTrustLevel s = "普通" ↔ 5 ≤ s ∧ s < 7)
      ∧ (getTrustLevel s = "低い" ↔ 3 ≤ s ∧ s < 5)
      ∧ (getTrustLevel s = "非常に低い" ↔ s < 3))
    ∧ (∀ s t : Int, getTrustLevel s = getTrustLevel t →
        getTrustEmoji s = getTrustEmoji t) := by
  constructor
  · intro s
    unfold getTrustLevel
    split_ifs with h1 h2 h3 h4 <;>
      refine ⟨?_, ?_, ?_, ?_, ?_⟩ <;>
      constructor <;>
      intro h <;>
      first
        | omega
        | rfl
        | (exact absurd h (by decide))
  · intro s t h
    rw [trustEmoji_factor, trustEmoji_factor, h]

/-- C6, witness: scores 9 and 10 share the trust level, so by
`c6_theorem` they share the emoji. -/
theorem c6_witness : getTrustEmoji 9 = getTrustEmoji 10 :=
  c6_theorem.2 9 10 (by decide)

/-! ### C7: monotonicity of the quality gate -/

/-- Taking `n` of the trust-sorted articles of one category yields
`if co = cat then min n (#articles) else 0` articles of category
`cat`, when every input article has category `co`. -/
theorem countP_take_sorted (xs : List ClassifiedArticle) (co cat : Category) (n : Nat)
    (hall : ∀ x ∈ xs, x.category = co) :
    ((xs.insertionSort trel).take n).countP (fun x => decide (x.category = cat))
      = if co = cat then min n xs.length else 0 := by
  have hlen : (xs.insertionSort trel).length = xs.length := List.length_insertionSort trel xs
  have hall' : ∀ x ∈ (xs.insertionSort trel).take n, x.category = co := fun x hx =>
    hall x ((List.mem_insertionSort trel).mp (List.mem_of_mem_take hx))
  by_cases h : co = cat
  · subst h
    rw [if_pos rfl]
    rw [List.countP_eq_length.mpr (fun x hx => decide_eq_true (hall' x hx))]
    rw [List.length_take, hlen]
  · rw [if_neg h]
    rw [List.countP_eq_zero.mpr ?_]
    intro x hx hdec
    exact h ((hall' x hx).symm.trans (of_decide_eq_true hdec))

/-- The per-category output count of `_select_best_articles`. -/
theorem select_countP (cl : List ClassifiedArticle) (n : Nat) (cat : Category) :
    (selectBestArticles n cl).countP (fun x => decide (x.category = cat))
      = (if Category.Cloud = cat
          then min n ((cl.filter (fun c => decide (c.category = Category.Cloud))).length) else 0)
        + (if Category.AI = cat
          then min n ((cl.filter (fun c => decide (c.category = Category.AI))).length) else 0) := by
  unfold selectBestArticles
  rw [List.countP_append,
    countP_take_sorted _ Category.Cloud cat n
      (fun x hx => of_decide_eq_true (List.mem_filter.mp hx).2),
    countP_take_sorted _ Category.AI cat n
      (fun x hx => of_decide_eq_true (List.mem_filter.mp hx).2)]

/-- C7: the quality gate is monotone in its thresholds — raising
`min_trust` never enlarges `_filter_by_quality`'s output, and raising
`max_per_category` never shrinks any per-category count of
`_select_best_articles` (equivalently, lowering it never enlarges
one). -/
theorem c7_theorem (l : List Article) (cl : List ClassifiedArticle)
    (t1 t2 : Int) (c1 c2 : Nat) (ht : t1 ≤ t2) (hc : c1 ≤ c2) :
    (filterByQuality t2 l).length ≤ (filterByQuality t1 l).length
    ∧ (selectBestArticles c1 cl).countP (fun x => decide (x.category = Category.AI))
        ≤ (selectBestArticles c2 cl).countP (fun x => decide (x.category = Category.AI))
    ∧ (selectBestArticles c1 cl).countP (fun x => decide (x.category = Category.Cloud))
        ≤ (selectBestArticles c2 cl).countP (fun x => decide (x.category = Category.Cloud))
    ∧ (selectBestArticles c1 cl).countP (fun x => decide (x.category = Category.Other))
        ≤ (selectBestArticles c2 cl).countP (fun x => decide (x.category = Category.Other)) := by
  refine ⟨?_, ?_, ?_, ?_⟩
  · unfold filterByQuality
    rw [← List.countP_eq_length_filter, ← List.countP_eq_length_filter]
    refine List.countP_mono_left fun a _ hdec => ?_
    exact decide_eq_true (le_trans ht (of_decide_eq_true hdec))
  all_goals
    rw [select_countP, select_countP]
    split_ifs <;> omega

/-- C7, witness: concrete thresholds 3 ≤ 5 and caps 0 ≤ 1 on concrete
one-article lists. -/
theorem c7_witness :
    (filterByQuality 5 [⟨"t", "c", "u", 4⟩]).length
        ≤ (filterByQuality 3 [⟨"t", "c", "u", 4⟩]).length
    ∧ (selectBestArticles 0 [⟨⟨"t", "c", "u", 4⟩, Category.AI, 1⟩]).countP
          (fun x => decide (x.category = Category.AI))
        ≤ (selectBestArticles 1 [⟨⟨"t", "c", "u", 4⟩, Category.AI, 1⟩]).countP
          (fun x => decide (x.category = Category.AI))
    ∧ (selectBestArticles 0 [⟨⟨"t", "c", "u", 4⟩, Category.AI, 1⟩]).countP
          (fun x => decide (x.category = Category.Cloud))
        ≤ (selectBestArticles 1 [⟨⟨"t", "c", "u", 4⟩, Category.AI, 1⟩]).countP
          (fun x => decide (x.category = Category.Cloud))
    ∧ (selectBestArticles 0 [⟨⟨"t", "c", "u", 4⟩, Category.AI, 1⟩]).countP
          (fun x => decide (x.category = Category.Other))
        ≤ (selectBestArticles 1 [⟨⟨"t", "c", "u", 4⟩, Category.AI, 1⟩]).countP
          (fun x => decide (x.category = Category.Other)) :=
  c7_theorem [⟨"t", "c", "u", 4⟩] [⟨⟨"t", "c", "u", 4⟩, Category.AI, 1⟩] 3 5 0 1
    (by norm_num) (by norm_num)

/-! ### Membership in the classifier's output -/

/-- Every entry of `classify_articles`' output wraps an input article
that passed the Japanese-language filter and the exclusion filter. -/
theorem mem_classifyArticles {detect : String → Option String} {embed : String → ℚ × ℚ}
    {articles : List Article} {c : ClassifiedArticle}
    (hc : c ∈ classifyArticles detect embed articles) :
    c.article ∈ articles
    ∧ isJapaneseArticle detect c.article = true
    ∧ matchesExclusion c.article.title c.article.content = false := by
  unfold classifyArticles removeDuplicatesAndRank at hc
  have h1 := mem_of_mem_dedupByUrl (fun x => x.article.url) _ [] c hc
  have h2 := (List.mem_insertionSort crel).mp h1
  obtain ⟨x, hx, hfx⟩ := List.mem_filterMap.mp h2
  dsimp only at hfx
  by_cases hother : (classifySingleArticle embed x).1 ≠ Category.Other
  · rw [if_pos hother] at hfx
    have hcx : c.article = x := by
      injection hfx with h
      rw [← h]
    obtain ⟨hxj, hxf⟩ := List.mem_filter.mp hx
    obtain ⟨hxa, hxjap⟩ := List.mem_filter.mp hxj
    rw [hcx]
    exact ⟨hxa, hxjap, by simpa using hxf⟩
  · rw [if_neg hother] at hfx
    exact absurd hfx (by simp)

/-! ### C8: exclusion patterns force articles out of the output -/

/-- C8: an article whose combined lowercased title and content matches
an exclusion pattern never appears in the classifier's output, for any
language-detection and embedding oracles. -/
theorem c8_theorem (detect : String → Option String) (embed : String → ℚ × ℚ)
    (articles : List Article) (a : Article)
    (h : matchesExclusion a.title a.content = true) :
    (classifyArticles detect embed articles).filter (fun c => decide (c.article = a)) = [] := by
  rw [List.filter_eq_nil_iff]
  intro c hc hdec
  have h3 := (mem_classifyArticles hc).2.2
  rw [of_decide_eq_true hdec, h] at h3
  exact Bool.noConfusion h3

/-- An article whose text contains the exclusion keyword "採用"
(recruiting) together with strong AI keywords. -/
def jinjiArticle : Article :=
  ⟨"ChatGPT採用情報", "生成AIエンジニア採用のお知らせです。機械学習の経験者を募集しています。",
   "https://example.com/jobs", 7⟩

/-- C8, witness: the concrete recruiting article matches an exclusion
pattern, and by `c8_theorem` the classifier output on it is empty of
it. -/
theorem c8_witness :
    matchesExclusion jinjiArticle.title jinjiArticle.content = true
    ∧ (classifyArticles detect0 embed0 [jinjiArticle]).filter
        (fun c => decide (c.article = jinjiArticle)) = [] :=
  ⟨by decide, c8_theorem detect0 embed0 [jinjiArticle] jinjiArticle (by decide)⟩

/-! ### C9: bounds of the comprehensive trust score -/

/-- C9: the comprehensive trust score is the weighted sum of the five
sub-scores (weights 0.4/0.2/0.2/0.1/0.1) rounded to the nearest integer
and clamped into [1,10]; in particular it is always between 1 and 10
and never 0. -/
theorem c9_theorem (a : Article) :
    comprehensiveTrustScore a = max 1 (min 10 (pyRound (weightedTrustTotal a)))
    ∧ 1 ≤ comprehensiveTrustScore a ∧ comprehensiveTrustScore a ≤ 10 := by
  refine ⟨rfl, le_max_left 1 _, ?_⟩
  unfold comprehensiveTrustScore
  exact max_le (by norm_num) (min_le_left 10 _)

/-! ### C10: the undocumented Japanese-language filter -/

/-- The number of non-whitespace characters of a string — the quantity
the claim's length condition is stated in. -/
def countNonWhitespace (s : String) : Nat :=
  (s.data.filter (fun c => !pyIsSpace c)).length

/-- An article that fails `_is_japanese_article`'s length check never
appears in the output: the check compares the length of the
leading/trailing-stripped combined text against 10, and the count of
characters from the regex class `[ひらがなカタカナ漢字]` against 3. -/
theorem isJapanese_false_of_short (detect : String → Option String) (a : Article)
    (h : (pyStrip (a.title ++ " " ++ a.content)).length < 10
      ∨ japaneseCharCount (a.title ++ " " ++ a.content) < 3) :
    isJapaneseArticle detect a = false := by
  simp only [isJapaneseArticle]
  by_cases h1 : (pyStrip (a.title ++ " " ++ a.content)).length < 10
  · rw [if_pos h1]
  · rcases h with h | h
    · exact absurd h h1
    · rw [if_neg h1, if_pos h]

/-- C10, amended: every article whose combined title-plus-content text
either has stripped length below 10 (`len(text.strip()) < 10` — not a
count of non-whitespace characters) or has fewer than 3 characters of
the class `[ひらがなカタカナ漢字]` is silently dropped before any
category scoring, for any oracles. -/
theorem c10_theorem (detect : String → Option String) (embed : String → ℚ × ℚ)
    (articles : List Article) (a : Article)
    (h : (pyStrip (a.title ++ " " ++ a.content)).length < 10
      ∨ japaneseCharCount (a.title ++ " " ++ a.content) < 3) :
    (classifyArticles detect embed articles).filter (fun c => decide (c.article = a)) = [] := by
  rw [List.filter_eq_nil_iff]
  intro c hc hdec
  have h2 := (mem_classifyArticles hc).2.1
  rw [of_decide_eq_true hdec, isJapanese_false_of_short detect a h] at h2
  exact Bool.noConfusion h2

/-- A two-word ASCII article, far below every length threshold. -/
def tinyArticle : Article := ⟨"ab", "cd", "https://example.com/t", 0⟩

/-- C10, witness: the tiny article is dropped, by `c10_theorem`. -/
theorem c10_witness :
    (pyStrip (tinyArticle.title ++ " " ++ tinyArticle.content)).length < 10
    ∧ (classifyArticles detect0 embed0 [tinyArticle]).filter
        (fun c => decide (c.article = tinyArticle)) = [] :=
  ⟨by decide, c10_theorem detect0 embed0 [tinyArticle] tinyArticle (Or.inl (by decide))⟩

/-- An article with only 9 non-whitespace characters (below the claim's
threshold of 10) whose combined text `"AIML ながらカタ"` nevertheless has
stripped length exactly 10, enough Japanese-class characters, and two
AI keyword hits. -/
def c10Article : Article := ⟨"AIML", "ながらカタ", "https://example.com/a", 5⟩

set_option maxRecDepth 8000 in
/-- The concrete article passes the Japanese-language check: its
stripped combined text has length exactly 10 and it has 5 characters of
the Japanese character class. -/
theorem c10Article_japanese : isJapaneseArticle detect0 c10Article = true := by
  with_unfolding_all decide

set_option maxRecDepth 8000 in
/-- The concrete article's two AI keyword hits ("AI" and "ML", both in
the title) give combined AI score 2.4 ≥ 2.0, so it is classified AI
with confidence 1. -/
theorem c10Article_classified : classifySingleArticle embed0 c10Article = (Category.AI, 1) := by
  with_unfolding_all decide

set_option maxRecDepth 8000 in
/-- C10, counterexample: the claim's "fewer than 10 non-whitespace
characters" condition does not match the code: `c10Article` has only 9
non-whitespace characters, yet it survives the whole classify pipeline
(its stripped length is exactly 10, which is what the code tests) and
is emitted with category AI. -/
theorem c10_counterexample :
    countNonWhitespace (c10Article.title ++ " " ++ c10Article.content) < 10
    ∧ classifyArticles detect0 embed0 [c10Article]
        = [⟨c10Article, Category.AI, 1⟩] := by
  constructor
  · decide
  · have hjap : List.filter (isJapaneseArticle detect0) [c10Article] = [c10Article] := by
      rw [List.filter_cons_of_pos c10Article_japanese, List.filter_nil]
    have hexc : List.filter (fun a => !matchesExclusion a.title a.content) [c10Article]
        = [c10Article] := by
      decide
    simp only [classifyArticles]
    rw [hjap, hexc]
    have hclass : List.filterMap
        (fun a => let r := classifySingleArticle embed0 a;
          if r.1 ≠ Category.Other then
            some (⟨a, r.1, r.2⟩ : ClassifiedArticle)
          else none) [c10Article]
        = [⟨c10Article, Category.AI, 1⟩] := by
      simp only [List.filterMap_cons, List.filterMap_nil]
      rw [c10Article_classified]
      decide
    rw [hclass]
    decide
